/-
Verification of the vargacet game server core (server/src/models/game.py and
the move branch of server/src/ws/game_handler.py) against its natural-language
specification.

The Python code is shallowly embedded: pydantic models become structures,
mutating methods become pure functions returning updated values, Python ints
become Int, the insertion-ordered `players` dict becomes an association list,
and the obstacle set of "x,y" strings becomes a list of integer pairs (the
string encoding is injective on pairs, and the code only tests membership).
Python float arithmetic in damage resolution is modelled by exact IEEE-754
binary64 rounding over the rationals.
-/
import Mathlib

set_option linter.unusedVariables false

/-- Grid position with integer coordinates; equality by value. -/
structure Position where
  x : Int
  y : Int
deriving DecidableEq, Repr

inductive GameStatus where
  | lobby
  | in_progress
  | finished
  | game_over
deriving DecidableEq, Repr

inductive EffectType where
  | heal
  | damage
deriving DecidableEq, Repr

structure Effect where
  type : EffectType
  amount : Int
  area_of_effect : Int := 0
deriving DecidableEq, Repr

structure Ability where
  id : String
  name : String
  range : Int
  effect : Effect
  action_cost : Int := 1
  mana_cost : Int := 0
deriving DecidableEq, Repr

/-- A stat with current and max values (`Gauge` in game.py). -/
structure Gauge where
  current : Int
  maximum : Int
deriving DecidableEq, Repr

/-- `Gauge.__init__`: clamps `current` down to `maximum` when it exceeds it. -/
def Gauge.init (current maximum : Int) : Gauge :=
  if current > maximum then ⟨maximum, maximum⟩ else ⟨current, maximum⟩

/-- `Gauge.reset`. -/
def Gauge.reset (g : Gauge) : Gauge :=
  { g with current := g.maximum }

/-- `Gauge.add`: new gauge and the amount actually added. -/
def Gauge.add (g : Gauge) (amount : Int) : Gauge × Int :=
  let old := g.current
  let c := min (g.current + amount) g.maximum
  ({ g with current := c }, c - old)

/-- `Gauge.subtract`: new gauge and the amount actually subtracted. -/
def Gauge.subtract (g : Gauge) (amount : Int) : Gauge × Int :=
  let old := g.current
  let c := max (g.current - amount) 0
  ({ g with current := c }, old - c)

structure Hero where
  id : String
  position : Position
  start_position : Option Position := none
  owner_id : String
  hp : Gauge := ⟨10, 10⟩
  damage : Int := 5
  movement : Gauge := ⟨5, 5⟩
  armor : Int := 3
  action_points : Gauge := ⟨2, 2⟩
  mana : Gauge := ⟨10, 10⟩
  abilities : List Ability := []
  name : String
deriving DecidableEq, Repr

/-- The default ability catalog given to every created hero. -/
def defaultAbilities : List Ability :=
  [ { id := "heal_1", name := "Heal", range := 3,
      effect := { type := .heal, amount := 5 }, action_cost := 2, mana_cost := 3 },
    { id := "damage_1", name := "Punch", range := 1,
      effect := { type := .damage, amount := 6 }, action_cost := 1, mana_cost := 0 },
    { id := "ranged_1", name := "Shortbow", range := 3,
      effect := { type := .damage, amount := 4 }, action_cost := 1, mana_cost := 0 },
    { id := "explosion_1", name := "Explosion", range := 4,
      effect := { type := .damage, amount := 3, area_of_effect := 1 },
      action_cost := 2, mana_cost := 4 } ]

structure PlayerState where
  player_id : String
  name : Option String := none
  connected : Bool := false
  heroes : List Hero := []
deriving DecidableEq, Repr

/-- The value stored in `start_of_turn_state`: `model_dump` of every field
except `start_of_turn_state` and `current_turn`. -/
structure TurnSnapshot where
  game_id : String
  players : List (String × PlayerState)
  status : GameStatus
  grid_size : Int
  heroes_per_player : Int
  obstacles : List (Int × Int)
  moved_hero_id : Option String
deriving DecidableEq, Repr

structure GameState where
  game_id : String
  players : List (String × PlayerState) := []
  current_turn : Option String := none
  status : GameStatus := .lobby
  grid_size : Int := 10
  heroes_per_player : Int := 4
  obstacles : List (Int × Int) := []
  moved_hero_id : Option String := none
  start_of_turn_state : Option TurnSnapshot := none
deriving DecidableEq, Repr

namespace GameState

/-- `GameState.is_position_occupied`. -/
def is_position_occupied (g : GameState) (x y : Int) : Bool :=
  g.players.any fun kp => kp.2.heroes.any fun h => h.position.x = x ∧ h.position.y = y

/-- `GameState.is_valid_position`. -/
def is_valid_position (g : GameState) (x y : Int) : Bool :=
  if x < 0 ∨ x ≥ g.grid_size ∨ y < 0 ∨ y ≥ g.grid_size then false
  else !(g.obstacles.contains (x, y))

/-- All heroes of all players, in player-join then roster order (the nested
loops used by the hero lookup helpers). -/
def allHeroes (g : GameState) : List Hero :=
  g.players.flatMap fun kp => kp.2.heroes

/-- `GameState.get_hero_by_id` (first match in player/roster order). -/
def get_hero_by_id (g : GameState) (hero_id : String) : Option Hero :=
  (allHeroes g).find? fun h => h.id = hero_id

/-- `GameState.get_hero_at_position` (first match in player/roster order). -/
def get_hero_at_position (g : GameState) (position : Position) : Option Hero :=
  (allHeroes g).find? fun h => h.position.x = position.x ∧ h.position.y = position.y

end GameState

/-- Manhattan distance `abs(a.x - b.x) + abs(a.y - b.y)`. -/
def manhattan (a b : Position) : Int :=
  |a.x - b.x| + |a.y - b.y|

namespace GameState

/-- `GameState.get_heroes_in_area`: all heroes within Manhattan `radius` of
`center`, in player/roster order. -/
def get_heroes_in_area (g : GameState) (center : Position) (radius : Int) : List Hero :=
  (allHeroes g).filter fun h => manhattan h.position center ≤ radius

end GameState

/-! ## Pathfinding (`GameState.find_path`)

The Python loop keeps a list used as a priority queue of tuples
`(manhattan, x_dist, y_dist, x, y, path, distance)`, pops the front element,
and inserts successors behind all queue elements with priority `<=` theirs.
We embed the loop with an explicit fuel argument; the fuel chosen in
`GameState.find_path` exceeds the maximal possible number of iterations
(each expansion marks a fresh visited cell and inserts at most 4 entries). -/

/-- One entry of the search queue. -/
structure QEntry where
  pri : Nat × Nat × Nat
  x : Int
  y : Int
  path : List Position
  distance : Nat
deriving DecidableEq, Repr

/-- Python tuple comparison `<=` on the 3-element priority prefix. -/
def priLe (a b : Nat × Nat × Nat) : Bool :=
  a.1 < b.1 ∨ (a.1 = b.1 ∧ (a.2.1 < b.2.1 ∨ (a.2.1 = b.2.1 ∧ a.2.2 ≤ b.2.2)))

/-- `queue.insert(i, e)` where `i` is found by skipping entries with
priority `<=` the new entry's priority. -/
def insertQ (e : QEntry) : List QEntry → List QEntry
  | [] => [e]
  | q :: t => if priLe q.pri e.pri then q :: insertQ e t else e :: q :: t

/-- The four orthogonal directions, in the order the Python code tries them. -/
def directions : List (Int × Int) := [(0, 1), (1, 0), (0, -1), (-1, 0)]

namespace GameState

/-- Successor generation for one popped entry: try all orthogonal directions
in order, inserting each admissible neighbour into the queue. -/
def expand (g : GameState) (e : Position) (ignore_heroes : Bool)
    (cur : QEntry) (visited : List (Int × Int)) (queue : List QEntry) : List QEntry :=
  directions.foldl
    (fun q d =>
      let new_x := cur.x + d.1
      let new_y := cur.y + d.2
      if !visited.contains (new_x, new_y) ∧
          g.is_valid_position new_x new_y ∧
          !(g.obstacles.contains (new_x, new_y)) ∧
          (ignore_heroes ∨ !(g.is_position_occupied new_x new_y)) then
        let new_path := cur.path ++ [⟨new_x, new_y⟩]
        let priority := ((e.x - new_x).natAbs + (e.y - new_y).natAbs,
                         (e.x - new_x).natAbs, (e.y - new_y).natAbs)
        insertQ ⟨priority, new_x, new_y, new_path, cur.distance + 1⟩ q
      else q)
    queue

/-- The `while queue:` loop of `find_path`. -/
def find_path_loop (g : GameState) (e : Position) (max_distance : Int)
    (ignore_heroes : Bool) :
    Nat → List QEntry → List (Int × Int) → Option (List Position)
  | 0, _, _ => none
  | _ + 1, [], _ => none
  | fuel + 1, cur :: rest, visited =>
    if cur.x = e.x ∧ cur.y = e.y then
      some cur.path
    else if visited.contains (cur.x, cur.y) ∨ (cur.distance : Int) ≥ max_distance then
      find_path_loop g e max_distance ignore_heroes fuel rest visited
    else
      let visited' := (cur.x, cur.y) :: visited
      find_path_loop g e max_distance ignore_heroes fuel
        (g.expand e ignore_heroes cur visited' rest) visited'

/-- `GameState.find_path`. -/
def find_path (g : GameState) (s e : Position) (max_distance : Int)
    (ignore_heroes : Bool := false) : Option (List Position) :=
  if !g.is_valid_position e.x e.y then none
  else if s.x = e.x ∧ s.y = e.y then some [⟨s.x, s.y⟩]
  else if g.obstacles.contains (e.x, e.y) then none
  else
    find_path_loop g e max_distance ignore_heroes
      (4 * (g.grid_size.toNat * g.grid_size.toNat) + 8)
      [⟨((e.x - s.x).natAbs + (e.y - s.y).natAbs, (e.x - s.x).natAbs, (e.y - s.y).natAbs),
        s.x, s.y, [⟨s.x, s.y⟩], 0⟩]
      []

end GameState

/-! ## Python float arithmetic (`apply_effect` damage computation)

`apply_effect` computes `int(effect.amount * (1 - self.armor / 100.0))` in
IEEE-754 binary64 arithmetic. We model a binary64 value by its exact rational
value and each operation by exact rational arithmetic followed by rounding to
53 significand bits (round to nearest, ties to even). Subnormals and overflow
never arise for the magnitudes involved. Rationals are represented as
unnormalized `num/den` pairs with positive denominator, so that every
operation reduces by kernel integer arithmetic alone. -/

/-- An exact rational `num / den`; every constructor below keeps `den`
positive, and no normalization is ever needed. -/
structure PyQ where
  num : Int
  den : Int
deriving DecidableEq, Repr

def PyQ.ofInt (n : Int) : PyQ := ⟨n, 1⟩

def PyQ.addQ (a b : PyQ) : PyQ := ⟨a.num * b.den + b.num * a.den, a.den * b.den⟩

def PyQ.subQ (a b : PyQ) : PyQ := ⟨a.num * b.den - b.num * a.den, a.den * b.den⟩

def PyQ.mulQ (a b : PyQ) : PyQ := ⟨a.num * b.num, a.den * b.den⟩

/-- Exact division; `b` is never zero where this is used. -/
def PyQ.divQ (a b : PyQ) : PyQ :=
  if b.num < 0 then ⟨-(a.num * b.den), a.den * (-b.num)⟩ else ⟨a.num * b.den, a.den * b.num⟩

def PyQ.leQ (a b : PyQ) : Bool := a.num * b.den ≤ b.num * a.den

def PyQ.ltQ (a b : PyQ) : Bool := a.num * b.den < b.num * a.den

def PyQ.eqQ (a b : PyQ) : Bool := a.num * b.den = b.num * a.den

def PyQ.negQ (a : PyQ) : PyQ := ⟨-a.num, a.den⟩

def PyQ.absQ (a : PyQ) : PyQ := if a.num < 0 then ⟨-a.num, a.den⟩ else a

/-- `⌊a⌋` (denominator positive). -/
def PyQ.floorQ (a : PyQ) : Int := Int.fdiv a.num a.den

/-- `2 ^ z` as an exact rational. -/
def qpow2 (z : Int) : PyQ :=
  if 0 ≤ z then ⟨(2 ^ z.toNat : Nat), 1⟩ else ⟨1, (2 ^ (-z).toNat : Nat)⟩

/-- `⌊log₂ q⌋` for `q` in `(2 ^ (-80), 2 ^ 80)`: the largest `e` in
`[-80, 80]` with `2 ^ e ≤ q` (every nonzero value arising in the damage
computation lies well inside this range). -/
def floorLog2 (q : PyQ) : Int :=
  match (List.range 161).find? (fun k => (qpow2 (80 - (k : Int))).leQ q) with
  | some k => 80 - (k : Int)
  | none => -80

/-- Round a rational to the nearest integer, ties to even. -/
def roundNearestEven (x : PyQ) : Int :=
  let n := x.floorQ
  let r := x.subQ (PyQ.ofInt n)
  if r.ltQ ⟨1, 2⟩ then n
  else if (⟨1, 2⟩ : PyQ).ltQ r then n + 1
  else if n % 2 = 0 then n else n + 1

/-- Round a rational to the nearest binary64 value (round to nearest, ties to
even), for magnitudes in the normal range. -/
def roundDouble (q : PyQ) : PyQ :=
  if q.num = 0 then PyQ.ofInt 0
  else
    let a := q.absQ
    let ulpe := floorLog2 a - 52
    let m := roundNearestEven (a.divQ (qpow2 ulpe))
    let v := (PyQ.ofInt m).mulQ (qpow2 ulpe)
    if q.num < 0 then v.negQ else v

/-- Python `int()` on a float value: truncation toward zero. -/
def truncQ (q : PyQ) : Int :=
  if q.num < 0 then -(q.negQ.floorQ) else q.floorQ

/-- The damage actually dealt by `apply_effect`:
`int(amount * (1 - armor / 100.0))` in binary64 arithmetic. -/
def pyDamage (amount armor : Int) : Int :=
  let damage_reduction := roundDouble ((roundDouble (PyQ.ofInt armor)).divQ (PyQ.ofInt 100))
  let factor := roundDouble ((PyQ.ofInt 1).subQ damage_reduction)
  truncQ (roundDouble ((roundDouble (PyQ.ofInt amount)).mulQ factor))

/-! ## Hero update helper

Python methods look a hero up by id and mutate the found object in place.
We model this by rewriting the first hero with the given id (the object that
`get_hero_by_id` would alias) inside the player list. -/

/-- Rewrite the first hero with the given id in a roster. -/
def updateHeroInList (hero_id : String) (f : Hero → Hero) : List Hero → List Hero
  | [] => []
  | h :: t => if h.id = hero_id then f h :: t else h :: updateHeroInList hero_id f t

def playerHasHero (p : PlayerState) (hero_id : String) : Bool :=
  p.heroes.any fun h => h.id = hero_id

/-- Rewrite the first hero with the given id across the player list. -/
def updateHeroPlayers (hero_id : String) (f : Hero → Hero) :
    List (String × PlayerState) → List (String × PlayerState)
  | [] => []
  | (k, p) :: t =>
    if playerHasHero p hero_id then
      (k, { p with heroes := updateHeroInList hero_id f p.heroes }) :: t
    else (k, p) :: updateHeroPlayers hero_id f t

namespace GameState

def updateHero (g : GameState) (hero_id : String) (f : Hero → Hero) : GameState :=
  { g with players := updateHeroPlayers hero_id f g.players }

/-! ## Combat resolution -/

/-- The per-player loop of `remove_dead_heroes`: filter each roster, collect
the dead, and stop at the first player left without heroes (the `break`).
Returns the processed player list, the dead heroes, and the loser's id. -/
def removeDeadGo : List (String × PlayerState) →
    List (String × PlayerState) × List Hero × Option String
  | [] => ([], [], none)
  | (k, p) :: t =>
    let dead := p.heroes.filter fun h => h.hp.current ≤ 0
    let alive := p.heroes.filter fun h => h.hp.current > 0
    let p' := { p with heroes := alive }
    if alive.isEmpty then ((k, p') :: t, dead, some k)
    else
      let r := removeDeadGo t
      ((k, p') :: r.1, dead ++ r.2.1, r.2.2)

/-- `GameState.remove_dead_heroes`. When a player is left without heroes the
status becomes game over and `current_turn` is set to the first other player
id (Python's `next(pid for pid in self.players.keys() if pid != ...)`, which
raises if no other player exists — that situation is unreachable in a
two-player game and the embedding then leaves `current_turn` unchanged). -/
def remove_dead_heroes (g : GameState) : GameState × List Hero :=
  let r := removeDeadGo g.players
  match r.2.2 with
  | none => ({ g with players := r.1 }, r.2.1)
  | some loser =>
    match (g.players.map Prod.fst).find? (fun pid => pid ≠ loser) with
    | some winner =>
      ({ g with players := r.1, status := .game_over, current_turn := some winner }, r.2.1)
    | none => ({ g with players := r.1 }, r.2.1)

/-- `GameState.apply_effect` on the hero with the given id: damage through
the binary64 armor computation or heal, then the death check. -/
def apply_effect (g : GameState) (target_id : String) (effect : Effect) :
    GameState × List Hero :=
  let g' :=
    match effect.type with
    | .damage => g.updateHero target_id fun h =>
        { h with hp := (h.hp.subtract (pyDamage effect.amount h.armor)).1 }
    | .heal => g.updateHero target_id fun h =>
        { h with hp := (h.hp.add effect.amount).1 }
  g'.remove_dead_heroes

/-- The `for target_hero in affected_heroes:` loop of `use_ability`. -/
def applyEffects (g : GameState) (effect : Effect) : List String → GameState × List Hero
  | [] => (g, [])
  | tid :: rest =>
    let r := g.apply_effect tid effect
    let r2 := r.1.applyEffects effect rest
    (r2.1, r.2 ++ r2.2)

end GameState

/-- Deduplication of the dead-hero list by hero id, keeping first
occurrences. -/
def dedupById (seen : List String) : List Hero → List Hero
  | [] => []
  | h :: t => if seen.contains h.id then dedupById seen t
              else h :: dedupById (h.id :: seen) t

/-- Result triple of `use_ability`. -/
structure AbilityResult where
  success : Bool
  error : Option String
  dead_heroes : List Hero
deriving DecidableEq, Repr

namespace GameState

/-- The success path of `use_ability` once validation has passed: consume
action points and mana, then apply the effect to every affected hero and
deduplicate the dead list. -/
def castAbility (g : GameState) (hero : Hero) (ability : Ability)
    (affected : List Hero) : GameState × AbilityResult :=
  let g1 := g.updateHero hero.id fun h =>
    { h with action_points := (h.action_points.subtract ability.action_cost).1,
             mana := (h.mana.subtract ability.mana_cost).1 }
  let r := g1.applyEffects ability.effect (affected.map (fun h => h.id))
  (r.1, ⟨true, none, dedupById [] r.2⟩)

/-- `GameState.use_ability`. Returns the new state (unchanged on failure)
together with the `(success, error_message, dead_heroes)` triple. -/
def use_ability (g : GameState) (hero_id ability_id : String)
    (target_position : Position) : GameState × AbilityResult :=
  match g.get_hero_by_id hero_id with
  | none => (g, ⟨false, some "Hero not found", []⟩)
  | some hero =>
    if some hero.owner_id ≠ g.current_turn then (g, ⟨false, some "Not your turn", []⟩)
    else match hero.abilities.find? (fun a => a.id = ability_id) with
    | none => (g, ⟨false, some "Ability not found", []⟩)
    | some ability =>
      if hero.action_points.current < ability.action_cost then
        (g, ⟨false, some "Not enough action points", []⟩)
      else if hero.mana.current < ability.mana_cost then
        (g, ⟨false, some "Not enough mana", []⟩)
      else if manhattan hero.position target_position > ability.range then
        (g, ⟨false, some "Target out of range", []⟩)
      else if ability.effect.area_of_effect = 0 then
        match g.get_hero_at_position target_position with
        | none => (g, ⟨false, some "No target at that position", []⟩)
        | some target_hero => g.castAbility hero ability [target_hero]
      else
        let affected := g.get_heroes_in_area target_position ability.effect.area_of_effect
        if affected.isEmpty then (g, ⟨false, some "No targets in area", []⟩)
        else g.castAbility hero ability affected

/-! ## Movement -/

/-- `GameState.can_move_to`. -/
def can_move_to (g : GameState) (hero_id : String) (new_position : Position) : Bool :=
  match g.get_hero_by_id hero_id with
  | none => false
  | some hero =>
    if !(g.is_valid_position new_position.x new_position.y) then false
    else if (g.get_hero_at_position new_position).isSome then false
    else match g.find_path hero.position new_position hero.movement.current with
    | none => false
    | some path =>
      if path.isEmpty then false
      else !((path.length : Int) - 1 > hero.movement.current)

/-- `GameState.move_hero`: `none` models the `False` return (no mutation). -/
def move_hero (g : GameState) (hero_id : String) (new_position : Position) :
    Option GameState :=
  if !(g.can_move_to hero_id new_position) then none
  else match g.get_hero_by_id hero_id with
  | none => none
  | some hero =>
    match g.find_path hero.position new_position hero.movement.current with
    | none => none
    | some path =>
      if path.isEmpty then none
      else
        let movement_cost := (path.length : Int) - 1
        some (g.updateHero hero_id fun h =>
          { h with movement := (h.movement.subtract movement_cost).1,
                   position := new_position })

end GameState

/-- `Hero.can_move_to` (the hero-level variant used by `Hero.move_to`). -/
def Hero.can_move_to (hero : Hero) (new_position : Position) (g : GameState) : Bool :=
  if new_position.x < 0 ∨ new_position.x ≥ g.grid_size ∨
      new_position.y < 0 ∨ new_position.y ≥ g.grid_size then false
  else if g.obstacles.contains (new_position.x, new_position.y) then false
  else match g.find_path hero.position new_position hero.movement.current with
  | none => false
  | some path =>
    if path.isEmpty then false
    else !((path.length : Int) - 1 > hero.movement.current)

/-- `Hero.move_to`: moves the hero object inside the game state, records the
start position on a first move, and sets `moved_hero_id`. `none` models the
`False` return (no mutation). -/
def GameState.hero_move_to (g : GameState) (hero : Hero) (new_position : Position) :
    Option GameState :=
  if !(hero.can_move_to new_position g) then none
  else match g.find_path hero.position new_position hero.movement.current with
  | none => none
  | some path =>
    if path.isEmpty then none
    else
      let movement_cost := (path.length : Int) - 1
      let g' := g.updateHero hero.id fun h =>
        { h with
          start_position := if h.start_position = none then some h.position
                            else h.start_position,
          position := new_position,
          movement := (h.movement.subtract movement_cost).1 }
      some { g' with moved_hero_id := some hero.id }

/-- The pure core of the `move_hero` branch of
`ConnectionManager.handle_message` (ws/game_handler.py): status check, turn
check, one-hero-per-turn gate, hero lookup, ownership check, `Hero.move_to`,
and the final `game.moved_hero_id = hero.id`. -/
def handleMoveHero (g : GameState) (player_id hero_id : String)
    (new_position : Position) : Except String GameState :=
  if g.status ≠ .in_progress then .error "Game is not in progress"
  else if g.current_turn ≠ some player_id then .error "Not your turn"
  else if g.moved_hero_id ≠ none ∧ g.moved_hero_id ≠ some hero_id then
    .error "You can only move one hero per turn"
  else match g.get_hero_by_id hero_id with
  | none => .error "Hero not found"
  | some hero =>
    if hero.owner_id ≠ player_id then .error "Not your hero"
    else match g.hero_move_to hero new_position with
    | none => .error "Invalid move"
    | some g' => .ok { g' with moved_hero_id := some hero.id }

/-! ## Turn lifecycle -/

namespace GameState

/-- The snapshot value `save_turn_state` stores: every field except
`current_turn` and the snapshot slot itself. -/
def snapshotOf (g : GameState) : TurnSnapshot :=
  ⟨g.game_id, g.players, g.status, g.grid_size, g.heroes_per_player,
   g.obstacles, g.moved_hero_id⟩

/-- `GameState.save_turn_state`. -/
def save_turn_state (g : GameState) : GameState :=
  { g with start_of_turn_state := some (snapshotOf g) }

/-- `Hero.reset_movement` followed by the extra `action_points.reset()` and
`mana.reset()` performed by `set_next_turn` (net effect: reset all three). -/
def resetHeroTurn (h : Hero) : Hero :=
  { h with movement := h.movement.reset,
           action_points := h.action_points.reset,
           mana := h.mana.reset }

/-- `GameState.set_next_turn`. When `current_turn` names a player that is not
a key of `players`, Python's `list.index` raises; the embedding's `indexOf`
then yields the list length, a case the theorems exclude by hypothesis. -/
def set_next_turn (g : GameState) : GameState :=
  if g.players.isEmpty then g
  else
    let g1 := g.save_turn_state
    let g2 := { g1 with moved_hero_id := none }
    let player_ids := g2.players.map Prod.fst
    let next : Option String :=
      match g2.current_turn with
      | none => player_ids.head?
      | some cur => player_ids.get? ((player_ids.indexOf cur + 1) % player_ids.length)
    let g3 := { g2 with current_turn := next }
    match next with
    | none => g3
    | some np =>
      if (g3.players.map Prod.fst).contains np then
        { g3 with players := g3.players.map fun kp =>
            if kp.1 = np then (kp.1, { kp.2 with heroes := kp.2.heroes.map resetHeroTurn })
            else kp }
      else g3

/-- `GameState.undo_turn`: restore every snapshotted field, keep
`current_turn`, clear `moved_hero_id`. `none` models the `False` return. -/
def undo_turn (g : GameState) : Option GameState :=
  match g.start_of_turn_state with
  | none => none
  | some saved =>
    some { g with
      game_id := saved.game_id,
      players := saved.players,
      status := saved.status,
      grid_size := saved.grid_size,
      heroes_per_player := saved.heroes_per_player,
      obstacles := saved.obstacles,
      moved_hero_id := none }

end GameState

/-! ## Specification-side definitions

`stepOk`/`specValidPath` formalize the spec's notion of a legal movement
path: consecutive positions differ by one orthogonal unit step, and every
cell after the first is in-bounds, not an obstacle and (for movement)
unoccupied. `use_ability_spec` transcribes the claimed validation order of
`use_ability` clause by clause; both are written from the specification's
words, to be compared with the definitions taken from the source. -/

/-- One legal path step: orthogonal unit move into a valid (and, unless
`ignore_heroes`, unoccupied) cell. -/
def stepOk (g : GameState) (ignore_heroes : Bool) (a b : Position) : Bool :=
  ((b.x - a.x).natAbs + (b.y - a.y).natAbs = 1) ∧
  g.is_valid_position b.x b.y ∧
  (ignore_heroes ∨ !(g.is_position_occupied b.x b.y))

/-- A nonempty sequence of legal steps. -/
def specValidPath (g : GameState) (ignore_heroes : Bool) : List Position → Bool
  | [] => false
  | [_] => true
  | a :: b :: rest => stepOk g ignore_heroes a b && specValidPath g ignore_heroes (b :: rest)

/-- The validation order claimed for `use_ability`, transcribed clause by
clause from the specification: (1) hero exists; (2) owner has the turn;
(3) ability on the hero's list; (4) action points; (5) mana; (6) Manhattan
range; (7) target resolution; only then deduct costs and apply effects. -/
def use_ability_spec (g : GameState) (hero_id ability_id : String)
    (target_position : Position) : GameState × AbilityResult :=
  match g.get_hero_by_id hero_id with
  | none => (g, ⟨false, some "Hero not found", []⟩)
  | some hero =>
    if some hero.owner_id ≠ g.current_turn then
      (g, ⟨false, some "Not your turn", []⟩)
    else match hero.abilities.find? (fun a => a.id = ability_id) with
    | none => (g, ⟨false, some "Ability not found", []⟩)
    | some ability =>
      if hero.action_points.current < ability.action_cost then
        (g, ⟨false, some "Not enough action points", []⟩)
      else if hero.mana.current < ability.mana_cost then
        (g, ⟨false, some "Not enough mana", []⟩)
      else if manhattan hero.position target_position > ability.range then
        (g, ⟨false, some "Target out of range", []⟩)
      else if ability.effect.area_of_effect = 0 then
        match g.get_hero_at_position target_position with
        | none => (g, ⟨false, some "No target at that position", []⟩)
        | some target_hero => g.castAbility hero ability [target_hero]
      else
        let affected := g.get_heroes_in_area target_position ability.effect.area_of_effect
        if affected.isEmpty then (g, ⟨false, some "No targets in area", []⟩)
        else g.castAbility hero ability affected

/-! ## Concrete fixtures used by counterexamples and witnesses -/

/-- A bare grid with no players, for pathfinding instances. -/
def pathGame (gs : Int) (obs : List (Int × Int)) : GameState :=
  { game_id := "path", grid_size := gs, obstacles := obs }

/-- 4×4 grid with obstacles at (1,1) and (2,1). -/
def grid1 : GameState := pathGame 4 [(1, 1), (2, 1)]

/-- 5×5 grid with an obstacle at (4,3). -/
def grid2 : GameState := pathGame 5 [(4, 3)]

def heroA1 : Hero := { id := "A1", position := ⟨0, 0⟩, owner_id := "p1", name := "A" }
def heroA2 : Hero := { id := "A2", position := ⟨2, 0⟩, owner_id := "p1", name := "B" }
def heroB1 : Hero := { id := "B1", position := ⟨4, 4⟩, owner_id := "p2", name := "C" }

/-- Two-player in-progress game used by the movement and turn claims. -/
def gameA : GameState :=
  { game_id := "g", grid_size := 6,
    players := [("p1", { player_id := "p1", heroes := [heroA1, heroA2] }),
                ("p2", { player_id := "p2", heroes := [heroB1] })],
    current_turn := some "p1", status := .in_progress }

def heroC : Hero :=
  { id := "c1", position := ⟨0, 0⟩, owner_id := "p1", name := "C",
    abilities := defaultAbilities }
def heroD : Hero :=
  { id := "d1", position := ⟨0, 1⟩, owner_id := "p1", name := "D",
    hp := ⟨1, 10⟩, armor := 0, abilities := defaultAbilities }
def heroE : Hero :=
  { id := "e1", position := ⟨5, 5⟩, owner_id := "p2", name := "E",
    abilities := defaultAbilities }

/-- Two-player in-progress game used by the ability claims: p1 owns the
caster `c1` and a one-hp ally `d1` standing next to it. -/
def gameB : GameState :=
  { game_id := "g2", grid_size := 6,
    players := [("p1", { player_id := "p1", heroes := [heroC, heroD] }),
                ("p2", { player_id := "p2", heroes := [heroE] })],
    current_turn := some "p1", status := .in_progress }

def heroE2 : Hero :=
  { id := "e1", position := ⟨1, 1⟩, owner_id := "p2", name := "E",
    hp := ⟨1, 10⟩, armor := 0, abilities := defaultAbilities }

/-- Like `gameB` but p2's only hero is a one-hp hero in shortbow range. -/
def gameC : GameState :=
  { game_id := "g3", grid_size := 6,
    players := [("p1", { player_id := "p1", heroes := [heroC, heroD] }),
                ("p2", { player_id := "p2", heroes := [heroE2] })],
    current_turn := some "p1", status := .in_progress }

def heroF : Hero :=
  { id := "f1", position := ⟨0, 0⟩, owner_id := "p1", name := "F", armor := 80 }
def heroG : Hero := { id := "g1", position := ⟨3, 3⟩, owner_id := "p2", name := "G" }

/-- Game with an 80-armor hero, for the damage-formula instance. -/
def gameD : GameState :=
  { game_id := "g4", grid_size := 6,
    players := [("p1", { player_id := "p1", heroes := [heroF] }),
                ("p2", { player_id := "p2", heroes := [heroG] })],
    current_turn := some "p2", status := .in_progress }

/-! ## Gauge call sequences (claim C8) -/

inductive GaugeCall where
  | add (amount : Int)
  | subtract (amount : Int)
deriving DecidableEq, Repr

/-- Execute one call against a gauge. -/
def applyCall (g : Gauge) : GaugeCall → Gauge
  | .add a => (g.add a).1
  | .subtract a => (g.subtract a).1

def callAmount : GaugeCall → Int
  | .add a => a
  | .subtract a => a

/-- Execute a sequence of `add`/`subtract` calls. -/
def applyCalls (g : Gauge) (calls : List GaugeCall) : Gauge :=
  calls.foldl applyCall g

/-- The gauge invariant `0 ≤ current ≤ maximum`. -/
def GaugeInv (g : Gauge) : Prop :=
  0 ≤ g.current ∧ g.current ≤ g.maximum

lemma gauge_step_inv (g : Gauge) (c : GaugeCall) (hg : GaugeInv g)
    (hc : 0 ≤ callAmount c) : GaugeInv (applyCall g c) := by
  obtain ⟨h0, h1⟩ := hg
  cases c <;>
    simp only [applyCall, Gauge.add, Gauge.subtract, GaugeInv, callAmount] at * <;>
    constructor <;> omega

lemma gauge_calls_inv (calls : List GaugeCall) (g : Gauge) (hg : GaugeInv g)
    (hc : ∀ c ∈ calls, 0 ≤ callAmount c) : GaugeInv (applyCalls g calls) := by
  induction calls generalizing g with
  | nil => exact hg
  | cons c t ih =>
    exact ih (applyCall g c) (gauge_step_inv g c hg (hc c (by simp)))
      (fun d hd => hc d (by simp [hd]))

/-- C8 (counterexample): with a negative amount, `add` drives `current` below
zero even from a gauge satisfying the invariant, and the returned value is
the signed, not the absolute, change. -/
theorem C8_counterexample :
    ¬ (0 ≤ ((Gauge.add ⟨0, 10⟩ (-1)).1).current) ∧
    (Gauge.add ⟨3, 10⟩ (-2)).2 ≠ |((Gauge.add ⟨3, 10⟩ (-2)).1).current - (3 : Int)| := by
  decide

/-- C8 (amended): for every gauge satisfying `0 ≤ current ≤ maximum` and
every sequence of `add`/`subtract` calls with nonnegative amounts, the
invariant holds after every call (i.e. after every prefix of the sequence),
and each call returns the absolute change of `current` after clamping. -/
theorem C8_gauge_invariant (g : Gauge) (calls : List GaugeCall)
    (hg : GaugeInv g) (hc : ∀ c ∈ calls, 0 ≤ callAmount c) :
    (∀ pre, pre <+: calls → GaugeInv (applyCalls g pre)) ∧
    (∀ a : Int, 0 ≤ a →
      (g.add a).2 = |((g.add a).1).current - g.current| ∧
      (g.subtract a).2 = |g.current - ((g.subtract a).1).current|) := by
  obtain ⟨h0, h1⟩ := hg
  constructor
  · intro pre hpre
    exact gauge_calls_inv pre g ⟨h0, h1⟩ (fun c hcmem => hc c (hpre.subset hcmem))
  · intro a ha
    constructor
    · simp only [Gauge.add]
      rw [abs_of_nonneg (by omega)]
    · simp only [Gauge.subtract]
      rw [abs_of_nonneg (by omega)]

/-- C8 (witness). -/
theorem C8_gauge_invariant_witness :
    GaugeInv (applyCalls ⟨5, 10⟩ [GaugeCall.add 7, GaugeCall.subtract 20]) ∧
    (Gauge.add ⟨5, 10⟩ 7).2 = |((Gauge.add ⟨5, 10⟩ 7).1).current - (5 : Int)| := by
  have h := C8_gauge_invariant ⟨5, 10⟩ [GaugeCall.add 7, GaugeCall.subtract 20]
    (by constructor <;> decide) (by decide)
  exact ⟨h.1 _ (List.prefix_refl _), (h.2 7 (by decide)).1⟩

/-- C9 (counterexample): `int(5 * (1 - 80/100.0))` is `0` in binary64
arithmetic while the exact `floor(5 × (1 − 80/100))` is `1`, so damage 5
against 80 armor leaves hp untouched where the claim demands a 1-point
reduction. -/
theorem C9_counterexample :
    pyDamage 5 80 = 0 ∧
    (5 * (100 - 80)) / 100 = (1 : Int) ∧
    ((gameD.apply_effect "f1" { type := .damage, amount := 5 }).1.get_hero_by_id "f1").map
      (fun h => h.hp.current) = some 10 := by
  decide

/-- C9 (amended): a Damage effect reduces the target's hp by
`int(amount * (1 - armor/100.0))` evaluated in binary64 floating point,
clamped at 0; this agrees with the exact floor on the cited examples —
amount 10 against armor 20 subtracts 8 and Punch's amount 6 against armor 3
subtracts 5 — and a Heal effect adds `amount` clamped to the maximum. -/
theorem C9_damage_formula (g : GameState) (tid : String) (eff : Effect) :
    (pyDamage 10 20 = 8 ∧ (10 * (100 - 20)) / 100 = (8 : Int)) ∧
    (pyDamage 6 3 = 5 ∧ (6 * (100 - 3)) / 100 = (5 : Int)) ∧
    (eff.type = .damage →
      g.apply_effect tid eff =
        (g.updateHero tid fun h =>
          { h with hp := ⟨max (h.hp.current - pyDamage eff.amount h.armor) 0,
                          h.hp.maximum⟩ }).remove_dead_heroes) ∧
    (eff.type = .heal →
      g.apply_effect tid eff =
        (g.updateHero tid fun h =>
          { h with hp := ⟨min (h.hp.current + eff.amount) h.hp.maximum,
                          h.hp.maximum⟩ }).remove_dead_heroes) := by
  refine ⟨by constructor <;> decide, by constructor <;> decide, ?_, ?_⟩ <;>
    · intro ht
      unfold GameState.apply_effect
      rw [ht]
      rfl

/-- C9 (witness). -/
theorem C9_damage_formula_witness :
    pyDamage 10 20 = 8 ∧
    gameD.apply_effect "f1" { type := .damage, amount := 5 } =
      (gameD.updateHero "f1" fun h =>
        { h with hp := ⟨max (h.hp.current - pyDamage 5 h.armor) 0,
                        h.hp.maximum⟩ }).remove_dead_heroes := by
  have h := C9_damage_formula gameD "f1" { type := .damage, amount := 5 }
  exact ⟨h.1.1, h.2.2.1 rfl⟩

/-- C10: target resolution is faction-blind. A hero is collected by
`get_heroes_in_area` exactly when it is any player's hero within Manhattan
`radius` of the center — there is no ownership filter — and concretely:
the caster `c1` hitting the cell of its own ally `d1` with the area ability
Explosion succeeds, kills the ally (same owner `p1` as the caster) and
damages the caster itself down to 8 hp; likewise the single-target Punch may
target the caster's own ally and kills it. -/
theorem C10_faction_blind :
    (∀ (g : GameState) (c : Position) (r : Int) (h : Hero),
        h ∈ g.get_heroes_in_area c r ↔ h ∈ g.allHeroes ∧ manhattan h.position c ≤ r) ∧
    ((gameB.get_hero_by_id "c1").map Hero.owner_id = some "p1" ∧
      (gameB.get_hero_by_id "d1").map Hero.owner_id = some "p1" ∧
      gameB.current_turn = some "p1") ∧
    ((gameB.use_ability "c1" "explosion_1" ⟨0, 1⟩).2.success = true ∧
      (gameB.use_ability "c1" "explosion_1" ⟨0, 1⟩).2.dead_heroes.map Hero.id = ["d1"] ∧
      ((gameB.use_ability "c1" "explosion_1" ⟨0, 1⟩).1.get_hero_by_id "c1").map
        (fun h => h.hp.current) = some 8) ∧
    ((gameB.use_ability "c1" "damage_1" ⟨0, 1⟩).2.success = true ∧
      (gameB.use_ability "c1" "damage_1" ⟨0, 1⟩).2.dead_heroes.map Hero.id = ["d1"]) := by
  refine ⟨?_, by decide, by decide, by decide⟩
  intro g c r h
  simp [GameState.get_heroes_in_area, List.mem_filter]

/-- C6 (counterexample): after `end_turn` on `gameA`, a successful
`undo_turn` leaves the snapshot in place and a second `undo_turn` succeeds,
contradicting "the stored snapshot is none, so a second undo_turn fails". -/
theorem C6_counterexample :
    (gameA.set_next_turn.undo_turn.map
      (fun g => g.start_of_turn_state.isSome)) = some true ∧
    (gameA.set_next_turn.undo_turn.bind GameState.undo_turn).isSome = true := by
  decide

/-- C6 (amended): a successful `undo_turn` does not consume the snapshot:
`start_of_turn_state` is left exactly as it was, so a second `undo_turn`
within the same turn succeeds as well and changes nothing (the state is
already the restored one); the snapshot is only replaced when a new turn
begins. -/
theorem C6_snapshot_not_consumed (g g' : GameState) (h : g.undo_turn = some g') :
    g'.start_of_turn_state = g.start_of_turn_state ∧
    g.start_of_turn_state.isSome = true ∧
    g'.undo_turn = some g' := by
  unfold GameState.undo_turn at h ⊢
  cases hs : g.start_of_turn_state with
  | none => rw [hs] at h; cases h
  | some saved =>
    rw [hs] at h
    injection h with h
    subst h
    refine ⟨rfl, by simp, rfl⟩

/-- C6 (witness). -/
theorem C6_snapshot_not_consumed_witness :
    ((gameA.set_next_turn.undo_turn.getD gameA).start_of_turn_state =
      gameA.set_next_turn.start_of_turn_state) ∧
    (gameA.set_next_turn.undo_turn.getD gameA).undo_turn =
      some (gameA.set_next_turn.undo_turn.getD gameA) := by
  have h := C6_snapshot_not_consumed gameA.set_next_turn
    (gameA.set_next_turn.undo_turn.getD gameA) (by decide)
  exact ⟨h.1, h.2.2⟩

/-- Helper: `set_next_turn` leaves the snapshot it takes first in place. -/
lemma set_next_turn_snapshot (g : GameState) (h : g.players.isEmpty = false) :
    (g.set_next_turn).start_of_turn_state = some (GameState.snapshotOf g) := by
  unfold GameState.set_next_turn
  rw [h]
  simp only [Bool.false_eq_true, if_false]
  split
  · rfl
  · split <;> rfl

/-- C5: calling `undo_turn` immediately after a successful `end_turn`
(`set_next_turn` on a game with players) restores players (hence every hero
position and gauge), obstacles, status, grid size and game id to their
pre-`end_turn` values, clears `moved_hero_id`, and leaves `current_turn` as
the player made active by the `end_turn`. -/
theorem C5_undo_restores_previous_turn (g : GameState) (h : g.players.isEmpty = false) :
    ∃ g'', (g.set_next_turn).undo_turn = some g'' ∧
      g''.players = g.players ∧
      g''.obstacles = g.obstacles ∧
      g''.moved_hero_id = none ∧
      g''.current_turn = (g.set_next_turn).current_turn ∧
      g''.status = g.status ∧
      g''.grid_size = g.grid_size ∧
      g''.heroes_per_player = g.heroes_per_player ∧
      g''.game_id = g.game_id := by
  have hsnap := set_next_turn_snapshot g h
  refine ⟨⟨g.game_id, g.players, (g.set_next_turn).current_turn, g.status,
      g.grid_size, g.heroes_per_player, g.obstacles, none,
      some (GameState.snapshotOf g)⟩, ?_, rfl, rfl, rfl, rfl, rfl, rfl, rfl, rfl⟩
  unfold GameState.undo_turn
  rw [hsnap]
  rfl

/-- C5 (witness). -/
theorem C5_undo_restores_previous_turn_witness :
    gameA.players.isEmpty = false ∧
    ∃ g'', (gameA.set_next_turn).undo_turn = some g'' ∧
      g''.players = gameA.players ∧
      g''.obstacles = gameA.obstacles ∧
      g''.moved_hero_id = none ∧
      g''.current_turn = (gameA.set_next_turn).current_turn ∧
      g''.status = gameA.status ∧
      g''.grid_size = gameA.grid_size ∧
      g''.heroes_per_player = gameA.heroes_per_player ∧
      g''.game_id = gameA.game_id :=
  ⟨by decide, C5_undo_restores_previous_turn gameA (by decide)⟩

/-- C4: `use_ability` validates in exactly the claimed order — the function
coincides with `use_ability_spec`, the clause-by-clause transcription of the
claim — and on any failing check it returns `(false, message, [])` with the
game state unmutated. -/
theorem C4_validation_order (g : GameState) (hero_id ability_id : String)
    (pos : Position) :
    g.use_ability hero_id ability_id pos = use_ability_spec g hero_id ability_id pos ∧
    (∀ st res, g.use_ability hero_id ability_id pos = (st, res) → res.success = false →
      st = g ∧ res.error.isSome = true ∧ res.dead_heroes = []) := by
  refine ⟨rfl, ?_⟩
  intro st res h hf
  unfold GameState.use_ability at h
  repeat' first
    | split at h
    | (dsimp only at h)
  all_goals
    first
    | (cases h; exact ⟨rfl, rfl, rfl⟩)
    | (simp only [GameState.castAbility] at h; cases h; simp at hf)

/-- C4 (witness). -/
theorem C4_validation_order_witness :
    gameB.use_ability "c1" "nope" ⟨0, 1⟩ = use_ability_spec gameB "c1" "nope" ⟨0, 1⟩ ∧
    (gameB.use_ability "c1" "nope" ⟨0, 1⟩).1 = gameB ∧
    (gameB.use_ability "c1" "nope" ⟨0, 1⟩).2.error = some "Ability not found" := by
  have h := C4_validation_order gameB "c1" "nope" ⟨0, 1⟩
  have h2 := h.2 (gameB.use_ability "c1" "nope" ⟨0, 1⟩).1
    (gameB.use_ability "c1" "nope" ⟨0, 1⟩).2 rfl (by decide)
  exact ⟨h.1, h2.1, by decide⟩

/-- C2 (counterexample): `GameState.can_move_to` performs no turn-ownership
check and no moved-hero gate — it accepts a hero of the player whose turn it
is not (`B1`, owned by `p2`, while `current_turn` is `p1`), and accepts a
second hero (`A2`) after `moved_hero_id` was set to `A1`; and a successful
`GameState.move_hero` does not set `moved_hero_id`. -/
theorem C2_counterexample :
    gameA.current_turn = some "p1" ∧
    (gameA.get_hero_by_id "B1").map Hero.owner_id = some "p2" ∧
    gameA.can_move_to "B1" ⟨4, 5⟩ = true ∧
    ({ gameA with moved_hero_id := some "A1" }).can_move_to "A2" ⟨2, 1⟩ = true ∧
    (gameA.move_hero "B1" ⟨4, 5⟩).isSome = true ∧
    (gameA.move_hero "B1" ⟨4, 5⟩).map (fun g => g.moved_hero_id) = some none := by
  decide

/-- C2 (amended): the turn-ownership check, the one-moved-hero-per-turn gate
and the setting of `moved_hero_id` live in the websocket handler's
`move_hero` branch (with `Hero.move_to`), not in `GameState.can_move_to` /
`GameState.move_hero`. Whenever the handler pipeline succeeds, the game was
in progress, the requesting player held the turn and owned the hero,
`moved_hero_id` was empty or already this hero, and the result records
`moved_hero_id = hero`, the hero moved to the target and its movement gauge
reduced by the path cost. -/
theorem C2_move_gate (g : GameState) (player_id hero_id : String)
    (pos : Position) (g' : GameState)
    (h : handleMoveHero g player_id hero_id pos = Except.ok g') :
    g.status = .in_progress ∧
    g.current_turn = some player_id ∧
    (g.moved_hero_id = none ∨ g.moved_hero_id = some hero_id) ∧
    ∃ hero, g.get_hero_by_id hero_id = some hero ∧
      hero.owner_id = player_id ∧
      ∃ path, g.find_path hero.position pos hero.movement.current = some path ∧
        g' = { (g.updateHero hero.id fun h =>
                { h with
                  start_position := if h.start_position = none then some h.position
                                    else h.start_position,
                  position := pos,
                  movement := (h.movement.subtract ((path.length : Int) - 1)).1 })
               with moved_hero_id := some hero.id } := by
  unfold handleMoveHero at h
  split at h
  · cases h
  · rename_i h1
    split at h
    · cases h
    · rename_i h2
      split at h
      · cases h
      · rename_i h3
        split at h
        · cases h
        · rename_i hero heq
          split at h
          · cases h
          · rename_i hown
            split at h
            · cases h
            · rename_i g2 hmv
              injection h with h
              subst h
              unfold GameState.hero_move_to at hmv
              split at hmv
              · cases hmv
              · split at hmv
                · cases hmv
                · rename_i path hpath
                  split at hmv
                  · cases hmv
                  · injection hmv with hmv
                    subst hmv
                    refine ⟨not_not.mp h1, not_not.mp h2, ?_, hero, heq,
                      not_not.mp hown, path, hpath, rfl⟩
                    rcases not_and_or.mp h3 with h4 | h4
                    · exact Or.inl (not_not.mp h4)
                    · exact Or.inr (not_not.mp h4)

/-- The state produced by the witness move of C2. -/
def gameA_moved : GameState :=
  (handleMoveHero gameA "p1" "A1" ⟨0, 3⟩).toOption.getD gameA

/-- C2 (witness). -/
theorem C2_move_gate_witness :
    gameA.status = .in_progress ∧
    gameA.current_turn = some "p1" ∧
    (gameA.moved_hero_id = none ∨ gameA.moved_hero_id = some "A1") ∧
    ∃ hero, gameA.get_hero_by_id "A1" = some hero ∧
      hero.owner_id = "p1" ∧
      ∃ path, gameA.find_path hero.position ⟨0, 3⟩ hero.movement.current = some path ∧
        gameA_moved = { (gameA.updateHero hero.id fun h =>
                { h with
                  start_position := if h.start_position = none then some h.position
                                    else h.start_position,
                  position := ⟨0, 3⟩,
                  movement := (h.movement.subtract ((path.length : Int) - 1)).1 })
               with moved_hero_id := some hero.id } :=
  C2_move_gate gameA "p1" "A1" ⟨0, 3⟩ gameA_moved (by rfl)

/-- Helper: in a duplicate-free list, `indexOf` inverts `get?`. -/
lemma indexOf_of_get? (l : List String) (i : Nat) (a : String)
    (hn : l.Nodup) (hg : l.get? i = some a) : l.indexOf a = i := by
  induction l generalizing i with
  | nil => cases hg
  | cons b t ih =>
    cases i with
    | zero =>
      injection hg with hg
      subst hg
      simp [List.indexOf_cons_self]
    | succ j =>
      have hmem : a ∈ t := List.get?_mem hg
      have hba : b ≠ a := by
        intro heq
        subst heq
        exact (List.nodup_cons.mp hn).1 hmem
      rw [List.indexOf_cons_ne _ (by simpa using hba)]
      rw [ih j (List.nodup_cons.mp hn).2 hg]

/-- C7: `set_next_turn` first snapshots the unmodified state (including the
old `moved_hero_id`), clears `moved_hero_id`, advances `current_turn` to the
player at the next join-order index (wrapping modulo the player count), and
resets the movement/action-point/mana gauges of exactly the new active
player's heroes — every other player's entry is left unchanged. (With a
single player the wrap makes the same player active again.) -/
theorem C7_turn_rotation (g : GameState) (cur : String) (i : Nat)
    (hcur : g.current_turn = some cur)
    (hget : (g.players.map Prod.fst).get? i = some cur)
    (hnd : (g.players.map Prod.fst).Nodup) :
    ∃ np, (g.players.map Prod.fst).get?
        ((i + 1) % (g.players.map Prod.fst).length) = some np ∧
      (g.set_next_turn).current_turn = some np ∧
      (g.set_next_turn).moved_hero_id = none ∧
      (g.set_next_turn).start_of_turn_state = some (GameState.snapshotOf g) ∧
      (g.set_next_turn).players = g.players.map (fun kp =>
        if kp.1 = np then
          (kp.1, { kp.2 with heroes := kp.2.heroes.map GameState.resetHeroTurn })
        else kp) ∧
      (g.set_next_turn).obstacles = g.obstacles ∧
      (g.set_next_turn).status = g.status ∧
      (g.set_next_turn).game_id = g.game_id ∧
      (g.set_next_turn).grid_size = g.grid_size := by
  have hlt : i < (g.players.map Prod.fst).length := by
    by_contra hge
    rw [List.get?_eq_none.mpr (by omega)] at hget
    cases hget
  have hlen : 0 < (g.players.map Prod.fst).length := by omega
  have hlt2 : (i + 1) % (g.players.map Prod.fst).length <
      (g.players.map Prod.fst).length := Nat.mod_lt _ hlen
  obtain ⟨np, hnp⟩ : ∃ np, (g.players.map Prod.fst).get?
      ((i + 1) % (g.players.map Prod.fst).length) = some np := by
    rw [List.get?_eq_get hlt2]
    exact ⟨_, rfl⟩
  have hmem : np ∈ g.players.map Prod.fst := List.get?_mem hnp
  have hcont : (g.players.map Prod.fst).contains np = true := by
    simpa [List.contains] using List.elem_eq_true_of_mem hmem
  have hne : g.players.isEmpty = false := by
    cases hp : g.players with
    | nil => rw [hp] at hlen; simp at hlen
    | cons a t => rfl
  have hidx : (g.players.map Prod.fst).indexOf cur = i :=
    indexOf_of_get? _ i cur hnd hget
  refine ⟨np, hnp, ?_⟩
  unfold GameState.set_next_turn
  rw [hne]
  simp only [Bool.false_eq_true, if_false, GameState.save_turn_state]
  rw [hcur]
  simp only []
  rw [hidx, hnp]
  simp only []
  rw [hcont]
  simp only [if_true]
  exact ⟨trivial, trivial, trivial, trivial, trivial, trivial, trivial, trivial⟩

/-- C7 (witness). -/
theorem C7_turn_rotation_witness :
    ∃ np, (gameA.players.map Prod.fst).get?
        ((0 + 1) % (gameA.players.map Prod.fst).length) = some np ∧
      (gameA.set_next_turn).current_turn = some np ∧
      (gameA.set_next_turn).moved_hero_id = none ∧
      (gameA.set_next_turn).start_of_turn_state = some (GameState.snapshotOf gameA) ∧
      (gameA.set_next_turn).players = gameA.players.map (fun kp =>
        if kp.1 = np then
          (kp.1, { kp.2 with heroes := kp.2.heroes.map GameState.resetHeroTurn })
        else kp) ∧
      (gameA.set_next_turn).obstacles = gameA.obstacles ∧
      (gameA.set_next_turn).status = gameA.status ∧
      (gameA.set_next_turn).game_id = gameA.game_id ∧
      (gameA.set_next_turn).grid_size = gameA.grid_size :=
  C7_turn_rotation gameA "p1" 0 (by decide) (by decide) (by decide)

/-- C3: whenever applying an ability effect (`apply_effect`, the common path
of both single-target and area abilities — `area_of_effect` is arbitrary
here) brings the last remaining hero of a player to 0 hp, that hero is
removed from its owner's roster, the status becomes game over and
`current_turn` is set to the other player's id, immediately during effect
application. -/
theorem C3_win_detection (g : GameState) (pa pb : String) (A B : PlayerState)
    (t : Hero) (eff : Effect)
    (hplayers : g.players = [(pa, A), (pb, B)])
    (hne : pa ≠ pb)
    (hB : B.heroes = [t])
    (halive : ∃ h, h ∈ A.heroes ∧ h.hp.current > 0)
    (hAids : ∀ h ∈ A.heroes, h.id ≠ t.id)
    (htype : eff.type = .damage)
    (hkill : t.hp.current - pyDamage eff.amount t.armor ≤ 0) :
    (g.apply_effect t.id eff).1.status = .game_over ∧
    (g.apply_effect t.id eff).1.current_turn = some pa ∧
    (g.apply_effect t.id eff).1.players =
      [(pa, { A with heroes := A.heroes.filter (fun h => h.hp.current > 0) }),
       (pb, { B with heroes := [] })] ∧
    (g.apply_effect t.id eff).2 =
      A.heroes.filter (fun h => h.hp.current ≤ 0) ++
        [{ t with hp := (t.hp.subtract (pyDamage eff.amount t.armor)).1 }] ∧
    ({ t with hp := (t.hp.subtract (pyDamage eff.amount t.armor)).1 } : Hero).hp.current = 0 := by
  have hA : playerHasHero A t.id = false := by
    simp only [playerHasHero, List.any_eq_false, decide_eq_true_eq]
    exact hAids
  have hBT : playerHasHero B t.id = true := by
    simp [playerHasHero, hB]
  have hc0 : (t.hp.subtract (pyDamage eff.amount t.armor)).1.current = 0 := by
    simp only [Gauge.subtract]
    omega
  have halive' : (A.heroes.filter (fun h => h.hp.current > 0)).isEmpty = false := by
    obtain ⟨h0, hmem, hpos⟩ := halive
    have hm : h0 ∈ A.heroes.filter (fun h => h.hp.current > 0) :=
      List.mem_filter.mpr ⟨hmem, by simpa using hpos⟩
    cases hfil : A.heroes.filter (fun h => h.hp.current > 0) with
    | nil => rw [hfil] at hm; cases hm
    | cons x xs => rfl
  unfold GameState.apply_effect
  rw [htype]
  simp only [GameState.updateHero, hplayers, updateHeroPlayers, hA, hBT,
    Bool.false_eq_true, if_false, if_true, hB, updateHeroInList, if_pos rfl]
  unfold GameState.remove_dead_heroes
  simp only [GameState.removeDeadGo, halive', Bool.false_eq_true, if_false,
    List.filter]
  simp [hne, hc0]

/-- C3 (witness): Shortbow (4 damage) kills p2's last hero `e1` (1 hp,
0 armor): the game ends and p1 becomes `current_turn`. -/
theorem C3_win_detection_witness :
    (gameC.apply_effect "e1" { type := .damage, amount := 4 }).1.status = .game_over ∧
    (gameC.apply_effect "e1" { type := .damage, amount := 4 }).1.current_turn = some "p1" := by
  have h := C3_win_detection gameC "p1" "p2"
    { player_id := "p1", heroes := [heroC, heroD] }
    { player_id := "p2", heroes := [heroE2] }
    heroE2 { type := .damage, amount := 4 }
    (by decide) (by decide) (by decide) (by decide) (by decide) (by decide) (by decide)
  exact ⟨h.1, h.2.1⟩

/-- C1 (counterexample): the search is greedy best-first, not shortest-path.
On `grid1` (4×4, obstacles at (1,1) and (2,1)) it returns a cost-6 path from
(0,0) to (2,2) although a valid cost-4 path exists; and on `grid2` (5×5,
obstacle at (4,3)) it returns `none` for (3,0)→(4,4) with budget 5 although
a valid path of cost exactly 5 exists — refuting both the optimality and the
"none iff no path within budget" halves of the claim. -/
theorem C1_counterexample :
    (grid1.find_path ⟨0, 0⟩ ⟨2, 2⟩ 6 false =
      some [⟨0, 0⟩, ⟨1, 0⟩, ⟨2, 0⟩, ⟨3, 0⟩, ⟨3, 1⟩, ⟨3, 2⟩, ⟨2, 2⟩] ∧
      ([⟨0, 0⟩, ⟨1, 0⟩, ⟨2, 0⟩, ⟨3, 0⟩, ⟨3, 1⟩, ⟨3, 2⟩, ⟨2, 2⟩] : List Position).length - 1 = 6) ∧
    (specValidPath grid1 false [⟨0, 0⟩, ⟨0, 1⟩, ⟨0, 2⟩, ⟨1, 2⟩, ⟨2, 2⟩] = true ∧
      ([⟨0, 0⟩, ⟨0, 1⟩, ⟨0, 2⟩, ⟨1, 2⟩, ⟨2, 2⟩] : List Position).length - 1 = 4) ∧
    grid2.find_path ⟨3, 0⟩ ⟨4, 4⟩ 5 false = none ∧
    (specValidPath grid2 false [⟨3, 0⟩, ⟨3, 1⟩, ⟨3, 2⟩, ⟨3, 3⟩, ⟨3, 4⟩, ⟨4, 4⟩] = true ∧
      ([⟨3, 0⟩, ⟨3, 1⟩, ⟨3, 2⟩, ⟨3, 3⟩, ⟨3, 4⟩, ⟨4, 4⟩] : List Position).length - 1 = 5) := by
  exact ⟨⟨by decide, by decide⟩, by decide, by decide, by decide⟩

/-! ## Soundness of the returned paths (amended C1) -/

/-- Invariant carried by every queue entry of the search: its recorded path
starts at `s`, ends at the entry's cell, is a valid step sequence, has
length `distance + 1`, and a goal entry respects the budget. -/
def QInv (g : GameState) (ig : Bool) (s e : Position) (maxd : Int)
    (en : QEntry) : Prop :=
  en.path.head? = some s ∧
  en.path.getLast? = some ⟨en.x, en.y⟩ ∧
  specValidPath g ig en.path = true ∧
  en.path.length = en.distance + 1 ∧
  ((en.x = e.x ∧ en.y = e.y) → (en.distance : Int) ≤ maxd)

lemma mem_insertQ (en en' : QEntry) (q : List QEntry)
    (h : en' ∈ insertQ en q) : en' = en ∨ en' ∈ q := by
  induction q with
  | nil => simpa [insertQ] using h
  | cons x xs ih =>
    rw [insertQ] at h
    split at h
    · rcases List.mem_cons.mp h with h1 | h1
      · exact Or.inr (List.mem_cons.mpr (Or.inl h1))
      · rcases ih h1 with h2 | h2
        · exact Or.inl h2
        · exact Or.inr (List.mem_cons.mpr (Or.inr h2))
    · rcases List.mem_cons.mp h with h1 | h1
      · exact Or.inl h1
      · exact Or.inr h1

lemma specValidPath_append (g : GameState) (ig : Bool) (p : List Position)
    (a b : Position) (hp : specValidPath g ig p = true)
    (hl : p.getLast? = some a) (hs : stepOk g ig a b = true) :
    specValidPath g ig (p ++ [b]) = true := by
  induction p with
  | nil => cases hl
  | cons x xs ih =>
    cases xs with
    | nil =>
      injection hl with hl
      subst hl
      simpa [specValidPath] using hs
    | cons y t =>
      rw [specValidPath, Bool.and_eq_true] at hp
      have hl' : (y :: t).getLast? = some a := by
        rwa [List.getLast?_cons_cons] at hl
      have h2 := ih hp.2 hl'
      rw [List.cons_append, List.cons_append, specValidPath, Bool.and_eq_true]
      rw [List.cons_append] at h2
      exact ⟨hp.1, h2⟩

lemma head?_append_singleton (p : List Position) (b : Position) (h : p ≠ []) :
    (p ++ [b]).head? = p.head? := by
  cases p with
  | nil => exact absurd rfl h
  | cons x xs => rfl

lemma expand_inv (g : GameState) (ig : Bool) (s e : Position) (maxd : Int)
    (cur : QEntry) (visited : List (Int × Int)) (queue : List QEntry)
    (hcur : QInv g ig s e maxd cur)
    (hd : (cur.distance : Int) < maxd)
    (hq : ∀ en ∈ queue, QInv g ig s e maxd en) :
    ∀ en ∈ g.expand e ig cur visited queue, QInv g ig s e maxd en := by
  have key : ∀ (dirs : List (Int × Int)),
      (∀ d ∈ dirs, d.1.natAbs + d.2.natAbs = 1) →
      ∀ (q0 : List QEntry), (∀ en ∈ q0, QInv g ig s e maxd en) →
      ∀ en ∈ dirs.foldl
        (fun q d =>
          let new_x := cur.x + d.1
          let new_y := cur.y + d.2
          if !visited.contains (new_x, new_y) ∧
              g.is_valid_position new_x new_y ∧
              !(g.obstacles.contains (new_x, new_y)) ∧
              (ig ∨ !(g.is_position_occupied new_x new_y)) then
            let new_path := cur.path ++ [⟨new_x, new_y⟩]
            let priority := ((e.x - new_x).natAbs + (e.y - new_y).natAbs,
                             (e.x - new_x).natAbs, (e.y - new_y).natAbs)
            insertQ ⟨priority, new_x, new_y, new_path, cur.distance + 1⟩ q
          else q) q0,
      QInv g ig s e maxd en := by
    intro dirs
    induction dirs with
    | nil => intro _ q0 hq0 en hen; exact hq0 en hen
    | cons d ds ih =>
      intro hunit q0 hq0 en hen
      rw [List.foldl_cons] at hen
      refine ih (fun d' hd' => hunit d' (List.mem_cons.mpr (Or.inr hd'))) _ ?_ en hen
      intro en' hen'
      dsimp only at hen'
      split at hen'
      · rename_i hcond
        rcases mem_insertQ _ en' _ hen' with h1 | h1
        · subst h1
          obtain ⟨hhead, hlast, hvalid, hlen, _⟩ := hcur
          have hne : cur.path ≠ [] := by
            intro hnil
            rw [hnil] at hlen
            cases hlen
          obtain ⟨hnv, hval, hnob, hocc⟩ := hcond
          refine ⟨?_, ?_, ?_, ?_, ?_⟩
          · rw [head?_append_singleton _ _ hne]; exact hhead
          · exact List.getLast?_concat _
          · refine specValidPath_append g ig cur.path ⟨cur.x, cur.y⟩ _ hvalid hlast ?_
            have hstep : ((cur.x + d.1) - cur.x).natAbs + ((cur.y + d.2) - cur.y).natAbs = 1 := by
              have := hunit d (List.mem_cons.mpr (Or.inl rfl))
              have hx : (cur.x + d.1) - cur.x = d.1 := by omega
              have hy : (cur.y + d.2) - cur.y = d.2 := by omega
              rw [hx, hy]
              exact this
            simp only [stepOk, Bool.and_eq_true, decide_eq_true_eq]
            exact ⟨by simpa using hstep, by simpa using hval, by simpa using hocc⟩
          · simp [hlen]
          · intro _
            push_cast
            omega
        · exact hq0 en' h1
      · exact hq0 en' hen'
  intro en hen
  exact key directions (by decide) queue hq en hen

lemma find_path_loop_sound (g : GameState) (ig : Bool) (s e : Position) (maxd : Int) :
    ∀ (fuel : Nat) (queue : List QEntry) (visited : List (Int × Int)),
      (∀ en ∈ queue, QInv g ig s e maxd en) →
      ∀ p, g.find_path_loop e maxd ig fuel queue visited = some p →
      p.head? = some s ∧ p.getLast? = some e ∧ specValidPath g ig p = true ∧
      (p.length : Int) - 1 ≤ maxd := by
  intro fuel
  induction fuel with
  | zero =>
    intro queue visited hq p h
    simp [GameState.find_path_loop] at h
  | succ n ih =>
    intro queue visited hq p h
    cases queue with
    | nil => simp [GameState.find_path_loop] at h
    | cons cur rest =>
      rw [GameState.find_path_loop] at h
      split at h
      · rename_i hgoal
        injection h with h
        subst h
        obtain ⟨hhead, hlast, hvalid, hlen, hcond⟩ := hq cur (List.mem_cons_self _ _)
        refine ⟨hhead, ?_, hvalid, ?_⟩
        · rw [hlast, hgoal.1, hgoal.2]
        · have := hcond hgoal
          rw [hlen]
          push_cast
          omega
      · rename_i hgoal
        split at h
        · exact ih rest visited (fun en hen => hq en (List.mem_cons_of_mem _ hen)) p h
        · rename_i hskip
          dsimp only at h
          refine ih _ _ ?_ p h
          have hd : (cur.distance : Int) < maxd := by
            push_neg at hskip
            exact hskip.2
          exact expand_inv g ig s e maxd cur _ rest
            (hq cur (List.mem_cons_self _ _)) hd
            (fun en hen => hq en (List.mem_cons_of_mem _ hen))

/-- C1 (amended): whenever `find_path` returns a path (with a nonnegative
budget), that path starts at `start`, ends at `end`, consists solely of
orthogonal unit steps into in-bounds, obstacle-free and (when
`ignore_heroes` is false) unoccupied cells, and its cost `len(path) − 1` is
at most `max_distance`. The returned path need not be a shortest one, and
`find_path` may return `none` even when a path within the budget exists
(see the counterexample). -/
theorem C1_path_soundness (g : GameState) (s e : Position) (maxd : Int)
    (ig : Bool) (p : List Position) (hmd : 0 ≤ maxd)
    (h : g.find_path s e maxd ig = some p) :
    p.head? = some s ∧ p.getLast? = some e ∧ specValidPath g ig p = true ∧
    (p.length : Int) - 1 ≤ maxd := by
  unfold GameState.find_path at h
  split at h
  · cases h
  · split at h
    · rename_i hse
      injection h with h
      subst h
      refine ⟨rfl, ?_, rfl, by simpa using hmd⟩
      show some (⟨s.x, s.y⟩ : Position) = some e
      rw [hse.1, hse.2]
    · rename_i hse
      split at h
      · cases h
      · refine find_path_loop_sound g ig s e maxd _ _ _ ?_ p h
        intro en hen
        rcases List.mem_singleton.mp hen with rfl
        exact ⟨rfl, rfl, rfl, rfl, fun hgoal => absurd hgoal hse⟩

/-- The path the greedy search actually returns on `grid1` for
(0,0)→(2,2) with budget 6. -/
def path7 : List Position :=
  [⟨0, 0⟩, ⟨1, 0⟩, ⟨2, 0⟩, ⟨3, 0⟩, ⟨3, 1⟩, ⟨3, 2⟩, ⟨2, 2⟩]

/-- C1 (witness). -/
theorem C1_path_soundness_witness :
    path7.head? = some ⟨0, 0⟩ ∧ path7.getLast? = some ⟨2, 2⟩ ∧
    specValidPath grid1 false path7 = true ∧ (path7.length : Int) - 1 ≤ 6 :=
  C1_path_soundness grid1 ⟨0, 0⟩ ⟨2, 2⟩ 6 false path7 (by decide) (by decide)
